import Mathlib

/-
Verification of the bill-scoring and bill-relating components of the
wa-state-tracker repository.

The Lean definitions below are a shallow embedding of
`scripts/score_bills.py` and `scripts/find_related_bills.py`.

Modelling conventions:
- A Python dict-based bill record becomes a structure whose optional keys
  are `Option` fields; `bill.get(k) or ""` becomes `(field.getD "")`.
- Machine integers are `Int`/`Nat` (no overflow is reachable here).
- `re.search(pattern, text, re.IGNORECASE)` is abstracted as an oracle
  `m : String → String → Bool` taking the pattern string and the analysis
  text; the scorer's control flow is independent of regex internals, and
  concrete instantiations used below agree with the real regex engine on
  the concrete strings they are applied to.
- Python string `lower()` / `upper()` are modelled for ASCII text.
- The float comparisons `> 0.4` and `> 0.5` on Jaccard ratios are modelled
  exactly over `Rat` (for the set sizes reachable here, IEEE-double
  division followed by comparison with the literals agrees with the exact
  rational comparison).
-/

/-! ### ASCII case conversion (model of Python str.lower / str.upper) -/

def lowerChar (c : Char) : Char :=
  if 'A' ≤ c ∧ c ≤ 'Z' then Char.ofNat (c.toNat + 32) else c

def upperChar (c : Char) : Char :=
  if 'a' ≤ c ∧ c ≤ 'z' then Char.ofNat (c.toNat - 32) else c

def lowerStr (s : String) : String := String.mk (s.toList.map lowerChar)

def upperStr (s : String) : String := String.mk (s.toList.map upperChar)

/-! ### Rule tables of `score_bills.py` (RED_FLAGS, ORANGE_FLAGS, GREEN_FLAGS)

The pattern strings are carried verbatim (Python raw-string characters);
weights are the dict values. -/

def RED_FLAGS : List (String × Int) := [
  ("\\b(ban|prohibit|restrict|forbid|criminalize|penalize|mandate|require|compel|force)\\b", 3),
  ("\\b(surveillance|monitor|track|database|registry|registration)\\b", 3),
  ("\\b(firearm|gun|weapon|ammunition)\\b.*\\b(restrict|ban|prohibit|regulate|limit)", 4),
  ("\\b(speech|expression|protest)\\b.*\\b(restrict|limit|regulate)", 4),
  ("\\b(emergency powers?|executive authority|governor.\x7b0,20\x7dauthority)", 3),
  ("\\b(tax increase|raise.\x7b0,10\x7dtax|new tax|additional tax|impose.\x7b0,10\x7dtax)", 3),
  ("\\b(fee increase|new fee|additional fee|surcharge)", 2),
  ("\\b(bond|borrow|debt|deficit spending)", 2),
  ("\\b(appropriat|spend|fund|allocat).\x7b0,20\x7d(\\d+\\s*(million|billion)|substantial)", 2),
  ("\\b(new (agency|department|bureau|commission|board|authority|office|program))", 3),
  ("\\b(creat|establish|implement).\x7b0,20\x7d(program|initiative|system|framework)", 2),
  ("\\b(expand|increase|enhance).\x7b0,20\x7d(authority|power|jurisdiction|enforcement)", 2),
  ("\\b(regulat|licensing|permit|certification).\x7b0,10\x7d(requirement|mandate|new)", 2),
  ("\\b(employer.\x7b0,10\x7d(must|shall|required)|business.\x7b0,10\x7d(must|shall|required))", 2),
  ("\\b(landlord.\x7b0,10\x7d(must|shall|required)|property owner.\x7b0,10\x7d(must|shall))", 2),
  ("\\b(insurance.\x7b0,10\x7d(mandate|require|coverage))", 2),
  ("\\b(minimum wage|wage.\x7b0,10\x7dincrease)", 2),
  ("\\b(zoning|land use).\x7b0,10\x7d(restrict|limit|regulate)", 2),
  ("\\b(carbon tax|emission.\x7b0,10\x7d(fee|tax|limit)|climate.\x7b0,10\x7dmandate)", 2),
  ("\\b(renewable.\x7b0,10\x7d(mandate|requirement)|clean energy.\x7b0,10\x7dstandard)", 2),
  ("\\b(curriculum.\x7b0,10\x7d(mandate|require)|school.\x7b0,10\x7d(mandate|require))", 2),
  ("\\b(dei|equity|inclusion).\x7b0,10\x7d(require|mandate|training)", 2)]

def ORANGE_FLAGS : List (String × Int) := [
  ("\\b(regulat|oversight|compliance|enforce)", 1),
  ("\\b(license|permit|certificate|credential)", 1),
  ("\\b(report|disclosure|transparency).\x7b0,10\x7d(require|mandate)", 1),
  ("\\b(study|task force|commission|committee|working group)", 1),
  ("\\b(grant|subsid|incentive|credit|rebate)", 1),
  ("\\b(fund|financ|appropriat)", 1),
  ("\\b(agency|department|bureau|office|program)", 1),
  ("\\b(state employ|public employ|government employ)", 1)]

def GREEN_FLAGS : List (String × Int) := [
  ("\\b(repeal|abolish|eliminate|remove).\x7b0,20\x7d(regulation|requirement|mandate|restriction|ban|prohibition)", -3),
  ("\\b(deregulat|reduce.\x7b0,10\x7dregulation|regulatory reform)", -3),
  ("\\b(protect|preserve|defend).\x7b0,20\x7d(right|liberty|freedom|property)", -2),
  ("\\b(due process|constitutional right|civil libert)", -2),
  ("\\b(tax (cut|reduction|relief|credit|deduction)|reduce.\x7b0,10\x7dtax|lower.\x7b0,10\x7dtax)", -3),
  ("\\b(spending (cut|reduction|limit)|reduce.\x7b0,10\x7dspending|fiscal restraint)", -3),
  ("\\b(balanced budget|debt reduction|deficit reduction)", -2),
  ("\\b(sunset|expir|terminat).\x7b0,20\x7d(program|agency|tax)", -2),
  ("\\b(eliminat|abolish|dissolve).\x7b0,20\x7d(agency|department|program|office)", -3),
  ("\\b(privatiz|contract out|outsource)", -2),
  ("\\b(limit|restrict|reduce).\x7b0,20\x7d(government|state|authority|power)", -2),
  ("\\b(audit|inspector general|accountability|oversight).\x7b0,20\x7dgovernment", -1),
  ("\\b(public record|freedom of information|open meeting)", -1),
  ("\\b(second amendment|right to bear|self.defense|concealed carry|constitutional carry)", -2),
  ("\\b(firearm|gun).\x7b0,20\x7d(right|freedom|protect)", -2)]

def ALL_FLAGS : List (String × Int) := RED_FLAGS ++ ORANGE_FLAGS ++ GREEN_FLAGS

/-! ### Concern labels

`pattern.split(r'\b')[1] if r'\b' in pattern else pattern[:30]`:
the segment of the pattern between its first two `\b` markers (Python
`str.split` on the two-character separator backslash-b, element 1), or the
first 30 characters when the pattern has no `\b`. -/

def afterBS : List Char → Option (List Char)
  | [] => none
  | '\\' :: 'b' :: rest => some rest
  | _ :: rest => afterBS rest

def uptoBS : List Char → List Char
  | [] => []
  | '\\' :: 'b' :: _ => []
  | c :: rest => c :: uptoBS rest

def concernLabel (p : String) : String :=
  match afterBS p.toList with
  | some rest => String.mk (uptoBS rest)
  | none => String.mk (p.toList.take 30)

/-! ### The scorer -/

structure SBill where
  title : Option String := none
  description : Option String := none
  last_action : Option String := none
  threat_score : Option Int := none
  threat_level : Option String := none
  threat_label : Option String := none
  concerns : Option (List String) := none
  positives : Option (List String) := none
deriving DecidableEq

/-- Analysis string `text = f"{title} {description} {last_action}"` over the lower-cased fields. -/

def analysis_text (b : SBill) : String :=
  lowerStr (b.title.getD "") ++ " " ++ lowerStr (b.description.getD "") ++ " " ++
    lowerStr (b.last_action.getD "")

/-- Body of one `for pattern, weight in TABLE.items():` loop of `score_bill`,
accumulating the score and the evidence list.  `guardPos` is true for the
ORANGE loop, whose concern-append is guarded by `if weight > 0`. -/

def tableFold (m : String → String → Bool) (text : String) (guardPos : Bool)
    (table : List (String × Int)) (init : Int × List String) : Int × List String :=
  table.foldl (fun acc pw =>
    if m pw.1 text then
      (acc.1 + pw.2,
       if guardPos = false ∨ 0 < pw.2 then acc.2 ++ [concernLabel pw.1] else acc.2)
    else acc) init

/-- Sum of the weights of the patterns of `table` matching `text`. -/

def matchedSum (m : String → String → Bool) (text : String)
    (table : List (String × Int)) : Int :=
  ((table.filter (fun pw => m pw.1 text)).map (fun pw => pw.2)).sum

/-- Labels appended by one table loop. -/

def matchedLabels (m : String → String → Bool) (text : String) (guardPos : Bool) :
    List (String × Int) → List String
  | [] => []
  | pw :: rest =>
    if m pw.1 text then
      (if guardPos = false ∨ 0 < pw.2 then [concernLabel pw.1] else []) ++
        matchedLabels m text guardPos rest
    else matchedLabels m text guardPos rest

/-- The `matched_concerns` list accumulated by the RED and ORANGE loops. -/

def matched_concerns (m : String → String → Bool) (b : SBill) : List String :=
  matchedLabels m (analysis_text b) false RED_FLAGS ++
    matchedLabels m (analysis_text b) true ORANGE_FLAGS

/-- The `matched_positives` list accumulated by the GREEN loop. -/

def matched_positives (m : String → String → Bool) (b : SBill) : List String :=
  matchedLabels m (analysis_text b) false GREEN_FLAGS

/-- Threat-level ladder of `score_bill` (lines 157-172). -/

def threat_level_of (score : Int) : String :=
  if 6 ≤ score then "critical"
  else if 3 ≤ score then "high"
  else if 1 ≤ score then "moderate"
  else if -2 ≤ score then "low"
  else "beneficial"

def threat_label_of (score : Int) : String :=
  if 6 ≤ score then "Critical Threat"
  else if 3 ≤ score then "High Threat"
  else if 1 ≤ score then "Moderate Concern"
  else if -2 ≤ score then "Low Concern"
  else "Potentially Beneficial"

/-- Function `score_bill` of `score_bills.py`, parameterised by the regex oracle `m`.
Python's `list(set(xs))` is modelled by `List.dedup` (the set's iteration
order is unspecified; no claim below depends on it). -/

def score_bill (m : String → String → Bool) (bill : SBill) : SBill :=
  let title := lowerStr (bill.title.getD "")
  let description := lowerStr (bill.description.getD "")
  let text := analysis_text bill
  let red := tableFold m text false RED_FLAGS (1, [])
  let orange := tableFold m text true ORANGE_FLAGS red
  let green := tableFold m text false GREEN_FLAGS (orange.1, [])
  let score := green.1
  let mc := orange.2
  let mp := green.2
  let noText := title = "" ∧ description = ""
  { bill with
    threat_score := some (if noText then 0 else score)
    threat_level := some (if noText then "unknown" else threat_level_of score)
    threat_label := some (if noText then "Insufficient Data" else threat_label_of score)
    concerns := if mc = [] then bill.concerns else some (mc.dedup.take 3)
    positives := if mp = [] then bill.positives else some (mp.dedup.take 3) }

/-! ### Concrete scorer inputs used in counterexamples and witnesses

`mFalse` is the oracle matching nothing; it agrees with the real regex
engine on the texts it is applied to below (no rule pattern matches a
blank analysis string).  `mMandate` matches exactly the first RED_FLAGS
pattern against the analysis text `"  mandate"`; the real
`re.search(r'\b(ban|...|mandate|...)\b', "  mandate", re.IGNORECASE)`
also matches there. -/

def mFalse : String → String → Bool := fun _ _ => false

def mMandate : String → String → Bool := fun p t =>
  p == "\\b(ban|prohibit|restrict|forbid|criminalize|penalize|mandate|require|compel|force)\\b"
    && t == "  mandate"

def bEmpty : SBill := {}

def bMandateAction : SBill := { title := some "", last_action := some "mandate" }

def bStale : SBill := { concerns := some ["stale evidence"] }

def bTitled : SBill := { title := some "levy" }

/-! ## The relator: `find_related_bills.py`

String order: Python's `sorted` on strings is code-point lexicographic;
`strLe` is that order on Lean strings. -/

def lexLe : List Char → List Char → Bool
  | [], _ => true
  | _ :: _, [] => false
  | a :: as, b :: bs => if a < b then true else if b < a then false else lexLe as bs

def strLe (a b : String) : Bool := lexLe a.toList b.toList

def sortedStrings (l : List String) : List String :=
  List.insertionSort (fun a b => strLe a b = true) l

/-! ### `extract_bill_number`: `re.match(r'([A-Z]+)\s*(\d+)', bill_number.upper())`

The regex is anchored at the start; since `[A-Z]` never matches a digit
and `\s` never matches a letter or digit, the greedy match is equivalent
to: maximal leading run of A-Z, then maximal run of whitespace, then a
non-empty run of digits (trailing characters ignored). -/

def isUpperAZ (c : Char) : Bool := 'A' ≤ c && c ≤ 'Z'

def isPySpace (c : Char) : Bool :=
  c == ' ' || c == '\t' || c == '\n' || c == '\r' || c == '\x0b' || c == '\x0c'

def digitsToNat (l : List Char) : Nat :=
  l.foldl (fun n c => n * 10 + (c.toNat - 48)) 0

def extract_bill_number (s : String) : Option (String × Nat) :=
  let cs := (upperStr s).toList
  let letters := cs.takeWhile isUpperAZ
  let r2 := (cs.dropWhile isUpperAZ).dropWhile isPySpace
  let digits := r2.takeWhile Char.isDigit
  if letters.isEmpty || digits.isEmpty then none
  else some (String.mk letters, digitsToNat digits)

/-! ### `get_words`: `re.findall(r'\b[a-z]{3,}\b', text.lower())` minus stopwords

A match of that regex is exactly a maximal run of word characters that
consists only of `a-z` and has length at least 3 (a digit or underscore
anywhere in the run kills both boundaries). -/

def stopwords : List String :=
  ["the", "a", "an", "and", "or", "but", "in", "on", "at", "to", "for",
   "of", "with", "by", "from", "as", "is", "was", "are", "were", "been",
   "be", "have", "has", "had", "do", "does", "did", "will", "would",
   "could", "should", "may", "might", "must", "shall", "concerning",
   "relating", "regarding", "making", "providing", "establishing"]

def isWordChar (c : Char) : Bool := c.isAlphanum || c == '_'

def isLowerAlpha (c : Char) : Bool := 'a' ≤ c && c ≤ 'z'

def tokenizeAux : List Char → List Char → List (List Char)
  | [], cur => if cur.isEmpty then [] else [cur.reverse]
  | c :: rest, cur =>
    if isWordChar c then tokenizeAux rest (c :: cur)
    else if cur.isEmpty then tokenizeAux rest []
    else cur.reverse :: tokenizeAux rest []

def get_words (text : String) : Finset String :=
  (((tokenizeAux (lowerStr text).toList []).filter
      (fun t => 3 ≤ t.length && t.all isLowerAlpha)).map String.mk).toFinset \
    stopwords.toFinset

/-! ### `word_overlap` (Jaccard ratio) and its threshold tests

The source computes `intersection / union` in floating point and compares
with the literals `0.4` and `0.5`; for the reachable set sizes the IEEE
comparison agrees with the exact rational one, modelled here over `Rat`.
`overlapGTb w1 w2 n d` decides `word_overlap w1 w2 > n/d`. -/

def word_overlap (w1 w2 : Finset String) : Rat :=
  if w1 = ∅ ∨ w2 = ∅ then 0
  else if 0 < (w1 ∪ w2).card then ((w1 ∩ w2).card : Rat) / ((w1 ∪ w2).card : Rat)
  else 0

def overlapGTb (w1 w2 : Finset String) (num den : Nat) : Bool :=
  if w1 = ∅ ∨ w2 = ∅ then false
  else decide (num * (w1 ∪ w2).card < den * (w1 ∩ w2).card)

/-! ### `find_topic` and the topic keyword table -/

def TOPIC_KEYWORDS : List (String × List String) := [
  ("tax", ["tax", "levy", "excise", "revenue"]),
  ("health", ["health", "medical", "hospital", "insurance", "medicare", "medicaid"]),
  ("education", ["education", "school", "student", "teacher", "university", "college"]),
  ("housing", ["housing", "rent", "landlord", "tenant", "homeless", "affordable"]),
  ("environment", ["environment", "climate", "emission", "pollution", "clean energy"]),
  ("labor", ["labor", "worker", "wage", "employment", "union"]),
  ("public safety", ["police", "firearm", "gun", "crime", "prison", "jail"]),
  ("transportation", ["transportation", "highway", "transit", "traffic", "vehicle"])]

def leadsWith : List Char → List Char → Bool
  | [], _ => true
  | _ :: _, [] => false
  | a :: as, b :: bs => a == b && leadsWith as bs

def containsSub (needle : List Char) : List Char → Bool
  | [] => needle.isEmpty
  | c :: rest => leadsWith needle (c :: rest) || containsSub needle rest

def find_topic (title : String) : Option String :=
  (TOPIC_KEYWORDS.find? (fun tk =>
    tk.2.any (fun kw => containsSub kw.toList (lowerStr title).toList))).map
    (fun tk => tk.1)

/-! ### Bill records and indices -/

structure RBill where
  bill_number : String := ""
  title : String := ""
  related_bills : Option (List String) := none
deriving DecidableEq

/-- The `if prefix and num:` guard of the indexing pass: a bill is indexed
under `(prefix, num)` iff its number parses and both parts are truthy
(`num` is an `Int` key since companion probing may go to 0 or negative). -/

def keyOK (b : RBill) : Option (String × Int) :=
  match extract_bill_number b.bill_number with
  | some pn => if pn.1 ≠ "" ∧ pn.2 ≠ 0 then some (pn.1, (pn.2 : Int)) else none
  | none => none

/-- Lookup `by_number[(prefix, num)]`: dict built in corpus order, later
entries overwrite earlier ones. -/

def by_number (bills : List RBill) (k : String × Int) : Option RBill :=
  bills.foldl (fun acc b => if keyOK b = some k then some b else acc) none

/-- Index `by_topic[topic]`: bills whose title detects that topic, in corpus order. -/

def by_topic (bills : List RBill) (t : String) : List RBill :=
  bills.filter (fun b => find_topic b.title = some t)

/-! ### Per-bill relation computation -/

/-- Step 1 of the relation loop: companion bills.  Offsets -10..10 are
`(i : Int) - 10` for `i ∈ range 21`. -/

def companions (bills : List RBill) (bill : RBill) : List String :=
  match extract_bill_number bill.bill_number with
  | some pn =>
    if (pn.1 = "HB" ∨ pn.1 = "SB") ∧ pn.2 ≠ 0 then
      (List.range 21).filterMap (fun (i : Nat) =>
        (by_number bills
          ((if pn.1 = "HB" then "SB" else "HB"), (pn.2 : Int) + ((i : Int) - 10))).bind
          (fun comp =>
            if comp.bill_number ≠ bill.bill_number ∧
               ((i : Int) - 10 = 0 ∨
                 overlapGTb (get_words bill.title) (get_words comp.title) 2 5 = true)
            then some comp.bill_number else none))
    else []
  | none => []

/-- Step 2: same-topic bills with title overlap above 0.5. -/

def topicMatches (bills : List RBill) (bill : RBill) : List String :=
  match find_topic bill.title with
  | some t =>
    ((by_topic bills t).filter (fun o =>
      o.bill_number ≠ bill.bill_number ∧
      overlapGTb (get_words bill.title) (get_words o.title) 1 2 = true)).map
      (fun o => o.bill_number)
  | none => []

/-- The `related` set accumulated for one bill (before sorting/truncation);
a Python set, modelled as a list up to duplication. -/

def acceptedRelated (bills : List RBill) (bill : RBill) : List String :=
  companions bills bill ++ topicMatches bills bill

/-- Final list `sorted(list(related))[:10]` (and `[]` when the set is empty,
which is the same list). -/

def relatedOf (bills : List RBill) (bill : RBill) : List String :=
  (sortedStrings (acceptedRelated bills bill).dedup).take 10

/-! ### Cluster summary -/

def dedupFirstAux {α : Type} [DecidableEq α] (seen : List α) : List α → List α
  | [] => []
  | x :: xs => if x ∈ seen then dedupFirstAux seen xs else x :: dedupFirstAux (x :: seen) xs

/-- Deduplication keeping first occurrences (Python dict key order). -/

def dedupFirst {α : Type} [DecidableEq α] (l : List α) : List α := dedupFirstAux [] l

/-- Members `clusters[topic]`: the set of bill numbers of bills detecting `topic`. -/

def clusterMembers (bills : List RBill) (t : String) : List String :=
  ((by_topic bills t).map (fun b => b.bill_number)).dedup

structure Cluster where
  topic : String
  count : Nat
  bills : List String
deriving DecidableEq

/-- Summary rows: `sorted(clusters.items(), key=lambda x: -len(x[1]))` then
`if len(bill_numbers) > 1` then `{'topic', 'count', 'bills'}`.
`insertionSort` with a non-strict total relation is stable, like Python's
sort; keys are in dict (first-insertion) order. -/

def clusterKeys (bills : List RBill) : List String :=
  dedupFirst (bills.filterMap (fun b => find_topic b.title))

def clusterSortedKeys (bills : List RBill) : List String :=
  List.insertionSort
    (fun t1 t2 => (clusterMembers bills t2).length ≤ (clusterMembers bills t1).length)
    (clusterKeys bills)

def cluster_data (bills : List RBill) : List Cluster :=
  ((clusterSortedKeys bills).filter (fun t => 1 < (clusterMembers bills t).length)).map
    (fun t =>
      { topic := t, count := (clusterMembers bills t).length,
        bills := (sortedStrings (clusterMembers bills t)).take 20 })

/-- The whole relator: every bill gets its `related_bills` written, and the
cluster summary is emitted alongside. -/

def find_related_bills (bills : List RBill) : List RBill × List Cluster :=
  (bills.map (fun b => { b with related_bills := some (relatedOf bills b) }),
   cluster_data bills)

def corpusW : List RBill := [{ bill_number := "HB 2" }, { bill_number := "SB 2" }]

/-! ### Claim C6 -/

def hb0 : RBill := { bill_number := "HB 0", title := "x" }

def sb0 : RBill := { bill_number := "SB 0", title := "y" }

def corpus6 : List RBill := [hb0, sb0]

def hbW : RBill := { bill_number := "HB 2" }

def sbW : RBill := { bill_number := "SB 2" }

def cexA : RBill := { bill_number := "HB 1" }

def cexB : RBill := { bill_number := "SB 1" }

def cexC : RBill := { bill_number := "SB 01" }

def corpus10 : List RBill := [cexB, cexC, cexA]

/-! ## Theorems -/

/-! ### Basic scorer lemmas -/

theorem tableFold_cons (m : String → String → Bool) (text : String) (g : Bool)
    (pw : String × Int) (rest : List (String × Int)) (init : Int × List String) :
    tableFold m text g (pw :: rest) init =
      tableFold m text g rest
        (if m pw.1 text then
          (init.1 + pw.2,
           if g = false ∨ 0 < pw.2 then init.2 ++ [concernLabel pw.1] else init.2)
         else init) := rfl

theorem tableFold_fst (m : String → String → Bool) (text : String) (g : Bool)
    (table : List (String × Int)) :
    ∀ init, (tableFold m text g table init).1 = init.1 + matchedSum m text table := by
  induction table with
  | nil => intro init; simp [tableFold, matchedSum]
  | cons pw rest ih =>
    intro init
    rw [tableFold_cons, ih]
    by_cases h : m pw.1 text <;> by_cases hg : (g = false ∨ 0 < pw.2) <;>
      simp [matchedSum, List.filter_cons, h, hg] <;> ring

theorem tableFold_snd (m : String → String → Bool) (text : String) (g : Bool)
    (table : List (String × Int)) :
    ∀ init, (tableFold m text g table init).2 = init.2 ++ matchedLabels m text g table := by
  induction table with
  | nil => intro init; simp [tableFold, matchedLabels]
  | cons pw rest ih =>
    intro init
    rw [tableFold_cons]
    by_cases h : m pw.1 text <;> by_cases hg : (g = false ∨ 0 < pw.2) <;>
      simp [matchedLabels, h, hg, ih]

theorem matchedSum_append (m : String → String → Bool) (text : String)
    (t1 t2 : List (String × Int)) :
    matchedSum m text (t1 ++ t2) = matchedSum m text t1 + matchedSum m text t2 := by
  simp [matchedSum, List.filter_append]

theorem score_bill_score (m : String → String → Bool) (b : SBill) :
    (score_bill m b).threat_score =
      some (if lowerStr (b.title.getD "") = "" ∧ lowerStr (b.description.getD "") = ""
            then 0 else 1 + matchedSum m (analysis_text b) ALL_FLAGS) := by
  simp only [score_bill, tableFold_fst, ALL_FLAGS, matchedSum_append]
  by_cases hT : lowerStr (b.title.getD "") = "" ∧ lowerStr (b.description.getD "") = ""
  · simp [hT]
  · simp only [hT, if_false]
    congr 1
    ring

theorem lowerStr_eq_empty {s : String} : lowerStr s = "" ↔ s = "" := by
  constructor
  · intro h
    cases s with
    | mk data =>
      simp only [lowerStr, String.toList] at h
      have : data.map lowerChar = [] := by
        have := congrArg String.data h
        simpa using this
      have : data = [] := by simpa using this
      simp [this]
  · intro h; simp [h, lowerStr]

theorem score_bill_level (m : String → String → Bool) (b : SBill) :
    (score_bill m b).threat_level =
      some (if lowerStr (b.title.getD "") = "" ∧ lowerStr (b.description.getD "") = ""
            then "unknown"
            else threat_level_of (1 + matchedSum m (analysis_text b) ALL_FLAGS)) := by
  simp only [score_bill, tableFold_fst, ALL_FLAGS, matchedSum_append]
  by_cases hT : lowerStr (b.title.getD "") = "" ∧ lowerStr (b.description.getD "") = ""
  · simp [hT]
  · simp only [hT, if_false]
    congr 2
    ring

theorem score_bill_label (m : String → String → Bool) (b : SBill) :
    (score_bill m b).threat_label =
      some (if lowerStr (b.title.getD "") = "" ∧ lowerStr (b.description.getD "") = ""
            then "Insufficient Data"
            else threat_label_of (1 + matchedSum m (analysis_text b) ALL_FLAGS)) := by
  simp only [score_bill, tableFold_fst, ALL_FLAGS, matchedSum_append]
  by_cases hT : lowerStr (b.title.getD "") = "" ∧ lowerStr (b.description.getD "") = ""
  · simp [hT]
  · simp only [hT, if_false]
    congr 2
    ring

theorem score_bill_concerns (m : String → String → Bool) (b : SBill) :
    (score_bill m b).concerns =
      if matched_concerns m b = [] then b.concerns
      else some ((matched_concerns m b).dedup.take 3) := by
  simp only [score_bill, tableFold_snd, List.nil_append, matched_concerns]

theorem score_bill_positives (m : String → String → Bool) (b : SBill) :
    (score_bill m b).positives =
      if matched_positives m b = [] then b.positives
      else some ((matched_positives m b).dedup.take 3) := by
  simp only [score_bill, tableFold_snd, List.nil_append, matched_positives]

theorem matchedLabels_nil_of_false (m : String → String → Bool) (text : String) (g : Bool)
    (table : List (String × Int)) (h : ∀ pw ∈ table, m pw.1 text = false) :
    matchedLabels m text g table = [] := by
  induction table with
  | nil => rfl
  | cons pw rest ih =>
    have h0 : m pw.1 text = false := h pw (List.mem_cons_self pw rest)
    simp only [matchedLabels, h0]
    exact ih (fun q hq => h q (List.mem_cons_of_mem pw hq))

/-! ### Claim C1 -/

/-- C1, as stated, is false: for a bill with empty title and description the
level is overridden to "unknown" and the score to 0, but pattern matches
against the last-action text still attach a `concerns` list.  Concrete
input: `{title: "", last_action: "mandate"}` under an oracle that (like the
real regex engine) matches the first RED_FLAGS pattern on `"  mandate"`. -/

theorem C1_counterexample :
    (score_bill mMandate bMandateAction).threat_level = some "unknown" ∧
    (score_bill mMandate bMandateAction).threat_score = some 0 ∧
    bMandateAction.concerns = none ∧
    (score_bill mMandate bMandateAction).concerns ≠ none := by decide

/-- C1 (amended): for every bill whose title and description are both empty,
`score_bill` returns level "unknown" and score exactly 0 regardless of any
matches against the last-action text; and when, in addition, no rule pattern
matches the analysis text (in particular when the last action is also
empty), no concerns and no positives are attached (the prior values of
those fields are left unchanged). -/

theorem C1_empty_text_amended (m : String → String → Bool) (b : SBill)
    (ht : b.title.getD "" = "") (hd : b.description.getD "" = "") :
    (score_bill m b).threat_level = some "unknown" ∧
    (score_bill m b).threat_score = some 0 ∧
    ((∀ pw ∈ ALL_FLAGS, m pw.1 (analysis_text b) = false) →
      (score_bill m b).concerns = b.concerns ∧
      (score_bill m b).positives = b.positives) := by
  have hT : lowerStr (b.title.getD "") = "" ∧ lowerStr (b.description.getD "") = "" :=
    ⟨lowerStr_eq_empty.mpr ht, lowerStr_eq_empty.mpr hd⟩
  refine ⟨?_, ?_, ?_⟩
  · rw [score_bill_level, if_pos hT]
  · rw [score_bill_score, if_pos hT]
  · intro hm
    have hr : ∀ pw ∈ RED_FLAGS, m pw.1 (analysis_text b) = false := fun pw hpw =>
      hm pw (by simp [ALL_FLAGS, hpw])
    have ho : ∀ pw ∈ ORANGE_FLAGS, m pw.1 (analysis_text b) = false := fun pw hpw =>
      hm pw (by simp [ALL_FLAGS, hpw])
    have hg : ∀ pw ∈ GREEN_FLAGS, m pw.1 (analysis_text b) = false := fun pw hpw =>
      hm pw (by simp [ALL_FLAGS, hpw])
    have hc : matched_concerns m b = [] := by
      simp [matched_concerns, matchedLabels_nil_of_false _ _ _ _ hr,
        matchedLabels_nil_of_false _ _ _ _ ho]
    have hp : matched_positives m b = [] := by
      simp [matched_positives, matchedLabels_nil_of_false _ _ _ _ hg]
    rw [score_bill_concerns, score_bill_positives, if_pos hc, if_pos hp]
    exact ⟨rfl, rfl⟩

/-- Witness for C1 (amended) at the all-empty bill and the nothing-matches
oracle. -/

theorem C1_empty_text_amended_witness :
    bEmpty.title.getD "" = "" ∧ bEmpty.description.getD "" = "" ∧
    ((score_bill mFalse bEmpty).threat_level = some "unknown" ∧
     (score_bill mFalse bEmpty).threat_score = some 0 ∧
     (score_bill mFalse bEmpty).concerns = none ∧
     (score_bill mFalse bEmpty).positives = none) := by
  have h := C1_empty_text_amended mFalse bEmpty rfl rfl
  have h3 := h.2.2 (fun pw _ => rfl)
  exact ⟨rfl, rfl, h.1, h.2.1, h3.1, h3.2⟩

/-! ### Claim C2 -/

/-- C2: for every bill with non-empty title or description, the final threat
score is `1` (the baseline) plus the algebraic sum of the weights of every
pattern, across all three rule tables, that matches the analysis text; all
tables contribute, with no short-circuiting. -/

theorem C2_score_sum (m : String → String → Bool) (b : SBill)
    (h : b.title.getD "" ≠ "" ∨ b.description.getD "" ≠ "") :
    (score_bill m b).threat_score =
      some (1 + matchedSum m (analysis_text b) ALL_FLAGS) ∧
    matchedSum m (analysis_text b) ALL_FLAGS =
      matchedSum m (analysis_text b) RED_FLAGS +
      matchedSum m (analysis_text b) ORANGE_FLAGS +
      matchedSum m (analysis_text b) GREEN_FLAGS := by
  have hT : ¬ (lowerStr (b.title.getD "") = "" ∧ lowerStr (b.description.getD "") = "") := by
    rintro ⟨h1, h2⟩
    rcases h with h | h
    · exact h (lowerStr_eq_empty.mp h1)
    · exact h (lowerStr_eq_empty.mp h2)
  constructor
  · rw [score_bill_score, if_neg hT]
  · simp [ALL_FLAGS, matchedSum_append, add_assoc]

/-- Witness for C2 at a bill with non-empty title. -/

theorem C2_score_sum_witness :
    (bTitled.title.getD "" ≠ "" ∨ bTitled.description.getD "" ≠ "") ∧
    (score_bill mFalse bTitled).threat_score =
      some (1 + matchedSum mFalse (analysis_text bTitled) ALL_FLAGS) := by
  refine ⟨Or.inl (by decide), (C2_score_sum mFalse bTitled (Or.inl (by decide))).1⟩

/-! ### Claim C3 -/

/-- C3: for bills with non-empty title or description the final level is the
threshold ladder applied (top-down, inclusive lower bounds) to the final
score, and the ladder takes the stated values on each band and on the
boundary scores 6, 5, 3, 2, 1, 0, -2, -3. -/

theorem C3_threshold_ladder (m : String → String → Bool) (b : SBill)
    (h : b.title.getD "" ≠ "" ∨ b.description.getD "" ≠ "") :
    (score_bill m b).threat_level =
      some (threat_level_of (1 + matchedSum m (analysis_text b) ALL_FLAGS)) ∧
    (∀ s : Int, 6 ≤ s → threat_level_of s = "critical") ∧
    (∀ s : Int, 3 ≤ s → s < 6 → threat_level_of s = "high") ∧
    (∀ s : Int, 1 ≤ s → s < 3 → threat_level_of s = "moderate") ∧
    (∀ s : Int, -2 ≤ s → s < 1 → threat_level_of s = "low") ∧
    (∀ s : Int, s < -2 → threat_level_of s = "beneficial") ∧
    threat_level_of 6 = "critical" ∧ threat_level_of 5 = "high" ∧
    threat_level_of 3 = "high" ∧ threat_level_of 2 = "moderate" ∧
    threat_level_of 1 = "moderate" ∧ threat_level_of 0 = "low" ∧
    threat_level_of (-2) = "low" ∧ threat_level_of (-3) = "beneficial" := by
  have hT : ¬ (lowerStr (b.title.getD "") = "" ∧ lowerStr (b.description.getD "") = "") := by
    rintro ⟨h1, h2⟩
    rcases h with h | h
    · exact h (lowerStr_eq_empty.mp h1)
    · exact h (lowerStr_eq_empty.mp h2)
  refine ⟨by rw [score_bill_level, if_neg hT], ?_, ?_, ?_, ?_, ?_, ?_⟩
  · intro s hs
    rw [threat_level_of, if_pos hs]
  · intro s h1 h2
    rw [threat_level_of, if_neg (by omega), if_pos h1]
  · intro s h1 h2
    rw [threat_level_of, if_neg (by omega), if_neg (by omega), if_pos h1]
  · intro s h1 h2
    rw [threat_level_of, if_neg (by omega), if_neg (by omega), if_neg (by omega), if_pos h1]
  · intro s h1
    rw [threat_level_of, if_neg (by omega), if_neg (by omega), if_neg (by omega),
      if_neg (by omega)]
  · exact ⟨rfl, rfl, rfl, rfl, rfl, rfl, rfl, rfl⟩

/-- Witness for C3 at a bill with non-empty title. -/

theorem C3_threshold_ladder_witness :
    (bTitled.title.getD "" ≠ "" ∨ bTitled.description.getD "" ≠ "") ∧
    (score_bill mFalse bTitled).threat_level =
      some (threat_level_of (1 + matchedSum mFalse (analysis_text bTitled) ALL_FLAGS)) := by
  exact ⟨Or.inl (by decide), (C3_threshold_ladder mFalse bTitled (Or.inl (by decide))).1⟩

/-! ### Claim C4 -/

/-- C4, as stated, is false: `score_bill` writes `concerns` (and
`positives`) only when the corresponding match list is non-empty, so a
prior `concerns` value survives a run that matches nothing.  Concrete
input: a bill with a stale `concerns` list, no text, under the
nothing-matches oracle (no real rule pattern matches a blank analysis
string either); a second bill with identical text fields but no prior
`concerns` yields a different result. -/

theorem C4_counterexample :
    bStale.title = bEmpty.title ∧ bStale.description = bEmpty.description ∧
    bStale.last_action = bEmpty.last_action ∧
    (score_bill mFalse bStale).concerns = some ["stale evidence"] ∧
    (score_bill mFalse bStale).concerns ≠ (score_bill mFalse bEmpty).concerns := by decide

/-- C4 (amended): on every run `score_bill` overwrites `threat_score`,
`threat_level` and `threat_label` on every bill (their new values depend
only on the text fields), and it overwrites `concerns` (resp. `positives`)
wholesale — with no incremental merge — exactly when the corresponding
match list is non-empty; when that list is empty the prior field value is
left untouched. -/

theorem C4_overwrite_amended (m : String → String → Bool) (b : SBill) :
    (∃ s, (score_bill m b).threat_score = some s) ∧
    (∃ l, (score_bill m b).threat_level = some l) ∧
    (∃ l, (score_bill m b).threat_label = some l) ∧
    ((score_bill m b).concerns =
      if matched_concerns m b = [] then b.concerns
      else some ((matched_concerns m b).dedup.take 3)) ∧
    ((score_bill m b).positives =
      if matched_positives m b = [] then b.positives
      else some ((matched_positives m b).dedup.take 3)) ∧
    (∀ b2 : SBill, b2.title = b.title → b2.description = b.description →
      b2.last_action = b.last_action →
      (score_bill m b2).threat_score = (score_bill m b).threat_score ∧
      (score_bill m b2).threat_level = (score_bill m b).threat_level ∧
      (score_bill m b2).threat_label = (score_bill m b).threat_label) := by
  refine ⟨⟨_, score_bill_score m b⟩, ⟨_, score_bill_level m b⟩, ⟨_, score_bill_label m b⟩,
    score_bill_concerns m b, score_bill_positives m b, ?_⟩
  intro b2 h1 h2 h3
  have htext : analysis_text b2 = analysis_text b := by
    simp [analysis_text, h1, h2, h3]
  refine ⟨?_, ?_, ?_⟩
  · rw [score_bill_score, score_bill_score, htext, h1, h2]
  · rw [score_bill_level, score_bill_level, htext, h1, h2]
  · rw [score_bill_label, score_bill_label, htext, h1, h2]

/-- Witness for C4 (amended): the always-overwritten fields at a concrete
bill, with the same-text clause discharged at the bill itself. -/

theorem C4_overwrite_amended_witness :
    (∃ s, (score_bill mMandate bMandateAction).threat_score = some s) ∧
    (score_bill mMandate bMandateAction).concerns =
      some ((matched_concerns mMandate bMandateAction).dedup.take 3) := by
  have h := C4_overwrite_amended mMandate bMandateAction
  refine ⟨h.1, ?_⟩
  have hc := h.2.2.2.1
  rw [hc, if_neg (by decide)]

/-! ### Order lemmas for `strLe` and the sorted/dedup/truncate pipeline -/

theorem lexLe_total : ∀ as bs : List Char, lexLe as bs = true ∨ lexLe bs as = true := by
  intro as
  induction as with
  | nil => intro bs; left; rfl
  | cons a as ih =>
    intro bs
    cases bs with
    | nil => right; rfl
    | cons b bs =>
      rcases lt_trichotomy a b with h | h | h
      · left; simp [lexLe, h]
      · subst h
        rcases ih bs with h2 | h2
        · left; simp [lexLe, lt_irrefl, h2]
        · right; simp [lexLe, lt_irrefl, h2]
      · right; simp [lexLe, h]

theorem lexLe_trans : ∀ as bs cs : List Char,
    lexLe as bs = true → lexLe bs cs = true → lexLe as cs = true := by
  intro as
  induction as with
  | nil => intro bs cs _ _; rfl
  | cons a as ih =>
    intro bs cs h1 h2
    cases bs with
    | nil => simp [lexLe] at h1
    | cons b bs =>
      cases cs with
      | nil => simp [lexLe] at h2
      | cons c cs =>
        simp only [lexLe] at h1 h2 ⊢
        rcases lt_trichotomy a b with hab | hab | hab
        · rcases lt_trichotomy b c with hbc | hbc | hbc
          · simp [lt_trans hab hbc]
          · subst hbc; simp [hab]
          · rw [if_neg (lt_asymm hbc), if_pos hbc] at h2
            exact absurd h2 (by simp)
        · subst hab
          rcases lt_trichotomy a c with hbc | hbc | hbc
          · simp [hbc]
          · subst hbc
            rw [if_neg (lt_irrefl a), if_neg (lt_irrefl a)] at h1 h2 ⊢
            exact ih _ _ h1 h2
          · rw [if_neg (lt_asymm hbc), if_pos hbc] at h2
            exact absurd h2 (by simp)
        · rw [if_neg (lt_asymm hab), if_pos hab] at h1
          exact absurd h1 (by simp)

theorem strLe_total (a b : String) : strLe a b = true ∨ strLe b a = true :=
  lexLe_total _ _

theorem strLe_trans {a b c : String} (h1 : strLe a b = true) (h2 : strLe b c = true) :
    strLe a c = true :=
  lexLe_trans _ _ _ h1 h2

theorem sortedStrings_perm (l : List String) : (sortedStrings l).Perm l :=
  List.perm_insertionSort _ l

theorem sortedStrings_sorted (l : List String) :
    List.Sorted (fun a b => strLe a b = true) (sortedStrings l) := by
  haveI : IsTotal String (fun a b => strLe a b = true) := ⟨strLe_total⟩
  haveI : IsTrans String (fun a b => strLe a b = true) := ⟨fun _ _ _ => strLe_trans⟩
  exact List.sorted_insertionSort _ l

theorem mem_relatedOf {bills : List RBill} {bill : RBill} {x : String}
    (hx : x ∈ relatedOf bills bill) : x ∈ acceptedRelated bills bill := by
  have h1 : x ∈ sortedStrings (acceptedRelated bills bill).dedup :=
    List.take_subset 10 _ hx
  exact List.mem_dedup.mp ((sortedStrings_perm _).mem_iff.mp h1)

theorem relatedOf_mem_of {bills : List RBill} {bill : RBill} {x : String}
    (hx : x ∈ acceptedRelated bills bill)
    (hlen : (relatedOf bills bill).length < 10) : x ∈ relatedOf bills bill := by
  have hs : x ∈ sortedStrings (acceptedRelated bills bill).dedup :=
    (sortedStrings_perm _).mem_iff.mpr (List.mem_dedup.mpr hx)
  have hl : (sortedStrings (acceptedRelated bills bill).dedup).length < 10 := by
    by_contra hcon
    push_neg at hcon
    have : (relatedOf bills bill).length = 10 := by
      simp only [relatedOf, List.length_take]
      omega
    omega
  rw [relatedOf, List.take_of_length_le (by omega)]
  exact hs

theorem relatedOf_nodup (bills : List RBill) (bill : RBill) :
    (relatedOf bills bill).Nodup :=
  ((List.take_sublist 10 _).nodup
    ((sortedStrings_perm _).nodup_iff.mpr (List.nodup_dedup _)))

theorem relatedOf_sorted (bills : List RBill) (bill : RBill) :
    List.Sorted (fun a b => strLe a b = true) (relatedOf bills bill) :=
  (sortedStrings_sorted _).sublist (List.take_sublist 10 _)

/-! ### `by_number` lemmas -/

theorem by_number_fold_mem {k : String × Int} :
    ∀ (bills : List RBill) (acc : Option RBill) (b : RBill),
    bills.foldl (fun acc b => if keyOK b = some k then some b else acc) acc = some b →
    (b ∈ bills ∧ keyOK b = some k) ∨ acc = some b := by
  intro bills
  induction bills with
  | nil => intro acc b h; right; exact h
  | cons hd tl ih =>
    intro acc b h
    simp only [List.foldl_cons] at h
    rcases ih _ b h with h1 | h1
    · exact Or.inl ⟨List.mem_cons_of_mem _ h1.1, h1.2⟩
    · by_cases hk : keyOK hd = some k
      · rw [if_pos hk] at h1
        have hb : hd = b := Option.some.inj h1
        subst hb
        exact Or.inl ⟨List.mem_cons_self _ _, hk⟩
      · rw [if_neg hk] at h1
        exact Or.inr h1

theorem by_number_mem {bills : List RBill} {k : String × Int} {b : RBill}
    (h : by_number bills k = some b) : b ∈ bills ∧ keyOK b = some k := by
  rcases by_number_fold_mem bills none b h with h1 | h1
  · exact h1
  · cases h1

theorem by_number_fold_some {k : String × Int} :
    ∀ (bills : List RBill) (x : RBill),
    ∃ c, bills.foldl (fun acc b => if keyOK b = some k then some b else acc) (some x) = some c := by
  intro bills
  induction bills with
  | nil => intro x; exact ⟨x, rfl⟩
  | cons hd tl ih =>
    intro x
    simp only [List.foldl_cons]
    by_cases hk : keyOK hd = some k
    · rw [if_pos hk]; exact ih hd
    · rw [if_neg hk]; exact ih x

theorem by_number_hit {k : String × Int} :
    ∀ (bills : List RBill) (acc : Option RBill) (b : RBill),
    b ∈ bills → keyOK b = some k →
    ∃ c, bills.foldl (fun acc b => if keyOK b = some k then some b else acc) acc = some c := by
  intro bills
  induction bills with
  | nil => intro acc b hb; cases hb
  | cons hd tl ih =>
    intro acc b hb hk
    simp only [List.foldl_cons]
    rcases List.mem_cons.mp hb with rfl | hb
    · rw [if_pos hk]
      exact by_number_fold_some tl b
    · exact ih _ b hb hk

theorem by_number_eq_of_inj {bills : List RBill} {k : String × Int} {b : RBill}
    (K : ∀ b1 ∈ bills, ∀ b2 ∈ bills, keyOK b1 = keyOK b2 → keyOK b1 ≠ none → b1 = b2)
    (hb : b ∈ bills) (hk : keyOK b = some k) : by_number bills k = some b := by
  rcases by_number_hit bills none b hb hk with ⟨c, hc⟩
  have hcm := by_number_mem (h := hc)
  have : c = b := K c hcm.1 b hb (by rw [hcm.2, hk]) (by rw [hcm.2]; exact Option.some_ne_none _)
  rw [by_number, hc, this]

/-! ### Membership characterizations for the two relation sources -/

theorem mem_by_topic {bills : List RBill} {t : String} {b : RBill} :
    b ∈ by_topic bills t ↔ b ∈ bills ∧ find_topic b.title = some t := by
  simp [by_topic, List.mem_filter]

theorem mem_topicMatches {bills : List RBill} {bill : RBill} {x : String} :
    x ∈ topicMatches bills bill ↔
    ∃ t, find_topic bill.title = some t ∧
      ∃ o, o ∈ bills ∧ find_topic o.title = some t ∧
        o.bill_number ≠ bill.bill_number ∧
        overlapGTb (get_words bill.title) (get_words o.title) 1 2 = true ∧
        x = o.bill_number := by
  unfold topicMatches
  cases h : find_topic bill.title with
  | none => simp [h]
  | some t =>
    simp only [List.mem_map, List.mem_filter, mem_by_topic, h, Option.some.injEq,
      decide_eq_true_eq]
    constructor
    · rintro ⟨o, ⟨⟨ho, hot⟩, hcond⟩, rfl⟩
      exact ⟨t, rfl, o, ho, hot, hcond.1, hcond.2, rfl⟩
    · rintro ⟨t2, ht2, o, ho, hot, hne, hov, rfl⟩
      subst ht2
      exact ⟨o, ⟨⟨ho, hot⟩, hne, hov⟩, rfl⟩

theorem companions_of_parse (bills : List RBill) (bill : RBill) (pn : String × Nat)
    (hp : extract_bill_number bill.bill_number = some pn) :
    companions bills bill =
      if (pn.1 = "HB" ∨ pn.1 = "SB") ∧ pn.2 ≠ 0 then
        (List.range 21).filterMap (fun (i : Nat) =>
          (by_number bills
            ((if pn.1 = "HB" then "SB" else "HB"), (pn.2 : Int) + ((i : Int) - 10))).bind
            (fun comp =>
              if comp.bill_number ≠ bill.bill_number ∧
                 ((i : Int) - 10 = 0 ∨
                   overlapGTb (get_words bill.title) (get_words comp.title) 2 5 = true)
              then some comp.bill_number else none))
      else [] := by
  unfold companions
  rw [hp]

theorem companions_of_noparse (bills : List RBill) (bill : RBill)
    (hp : extract_bill_number bill.bill_number = none) :
    companions bills bill = [] := by
  unfold companions
  rw [hp]

theorem mem_companions_iff {bills : List RBill} {bill : RBill} {x : String}
    (pn : String × Nat) (hp : extract_bill_number bill.bill_number = some pn)
    (hg : (pn.1 = "HB" ∨ pn.1 = "SB") ∧ pn.2 ≠ 0) :
    x ∈ companions bills bill ↔
    ∃ i : Nat, i < 21 ∧ ∃ comp,
      by_number bills
        ((if pn.1 = "HB" then "SB" else "HB"), (pn.2 : Int) + ((i : Int) - 10)) = some comp ∧
      comp.bill_number ≠ bill.bill_number ∧
      ((i : Int) - 10 = 0 ∨
        overlapGTb (get_words bill.title) (get_words comp.title) 2 5 = true) ∧
      x = comp.bill_number := by
  rw [companions_of_parse bills bill pn hp, if_pos hg]
  simp only [List.mem_filterMap, List.mem_range, Option.bind_eq_some,
    Option.ite_none_right_eq_some, Option.some.injEq]
  constructor
  · rintro ⟨i, hi, comp, hb, ⟨hne, hcond⟩, rfl⟩
    exact ⟨i, hi, comp, hb, hne, hcond, rfl⟩
  · rintro ⟨i, hi, comp, hb, hne, hcond, rfl⟩
    exact ⟨i, hi, comp, hb, ⟨hne, hcond⟩, rfl⟩

theorem companions_elem {bills : List RBill} {bill : RBill} {x : String}
    (hx : x ∈ companions bills bill) :
    x ≠ bill.bill_number ∧ ∃ c ∈ bills, c.bill_number = x := by
  cases hp : extract_bill_number bill.bill_number with
  | none => rw [companions_of_noparse bills bill hp] at hx; cases hx
  | some pn =>
    by_cases hg : (pn.1 = "HB" ∨ pn.1 = "SB") ∧ pn.2 ≠ 0
    · rcases (mem_companions_iff pn hp hg).mp hx with ⟨i, hi, comp, hb, hne, hcond, rfl⟩
      exact ⟨hne, comp, (by_number_mem hb).1, rfl⟩
    · rw [companions_of_parse bills bill pn hp, if_neg hg] at hx
      cases hx

theorem topicMatches_elem {bills : List RBill} {bill : RBill} {x : String}
    (hx : x ∈ topicMatches bills bill) :
    x ≠ bill.bill_number ∧ ∃ c ∈ bills, c.bill_number = x := by
  rcases mem_topicMatches.mp hx with ⟨t, _, o, ho, _, hne, _, rfl⟩
  exact ⟨hne, o, ho, rfl⟩

theorem acceptedRelated_elem {bills : List RBill} {bill : RBill} {x : String}
    (hx : x ∈ acceptedRelated bills bill) :
    x ≠ bill.bill_number ∧ ∃ c ∈ bills, c.bill_number = x := by
  rcases List.mem_append.mp hx with h | h
  · exact companions_elem h
  · exact topicMatches_elem h

/-! ### Jaccard comparison lemmas -/

theorem overlapGTb_comm (w1 w2 : Finset String) (n d : Nat) :
    overlapGTb w1 w2 n d = overlapGTb w2 w1 n d := by
  unfold overlapGTb
  rw [Finset.inter_comm, Finset.union_comm]
  simp only [or_comm]

theorem word_overlap_comm (w1 w2 : Finset String) :
    word_overlap w1 w2 = word_overlap w2 w1 := by
  unfold word_overlap
  rw [Finset.inter_comm, Finset.union_comm]
  simp only [or_comm]

/-- The executable threshold test decides the source's ratio comparison:
`overlapGTb w1 w2 n d` is exactly `word_overlap w1 w2 > n/d`. -/

theorem overlapGTb_iff (w1 w2 : Finset String) (n d : Nat) (hd : 0 < d) :
    overlapGTb w1 w2 n d = true ↔ word_overlap w1 w2 > (n : Rat) / (d : Rat) := by
  unfold overlapGTb word_overlap
  by_cases hE : w1 = ∅ ∨ w2 = ∅
  · rw [if_pos hE, if_pos hE]
    constructor
    · intro h; exact absurd h (by simp)
    · intro h
      have h0 : (0:Rat) ≤ (n : Rat) / (d : Rat) := by positivity
      exact absurd (lt_of_lt_of_le h h0) (lt_irrefl _)
  · rw [if_neg hE, if_neg hE]
    push_neg at hE
    rcases Finset.nonempty_iff_ne_empty.mpr hE.1 with ⟨a, ha⟩
    have hu : 0 < (w1 ∪ w2).card :=
      Finset.card_pos.mpr ⟨a, Finset.mem_union_left _ ha⟩
    rw [if_pos hu, decide_eq_true_eq, gt_iff_lt,
      div_lt_div_iff₀ (by exact_mod_cast hd) (by exact_mod_cast hu)]
    constructor
    · intro h
      calc (n : Rat) * ((w1 ∪ w2).card : Rat)
          = ((n * (w1 ∪ w2).card : Nat) : Rat) := by push_cast; ring
        _ < ((d * (w1 ∩ w2).card : Nat) : Rat) := by exact_mod_cast h
        _ = ((w1 ∩ w2).card : Rat) * (d : Rat) := by push_cast; ring
    · intro h
      have hcast : ((n * (w1 ∪ w2).card : Nat) : Rat) < ((d * (w1 ∩ w2).card : Nat) : Rat) := by
        calc ((n * (w1 ∪ w2).card : Nat) : Rat)
            = (n : Rat) * ((w1 ∪ w2).card : Rat) := by push_cast; ring
          _ < ((w1 ∩ w2).card : Rat) * (d : Rat) := h
          _ = ((d * (w1 ∩ w2).card : Nat) : Rat) := by push_cast; ring
      exact_mod_cast hcast

/-! ### keyOK equation lemmas -/

theorem keyOK_parse (b : RBill) (pn : String × Nat)
    (hp : extract_bill_number b.bill_number = some pn) :
    keyOK b = if pn.1 ≠ "" ∧ pn.2 ≠ 0 then some (pn.1, (pn.2 : Int)) else none := by
  unfold keyOK
  rw [hp]

theorem keyOK_noparse (b : RBill)
    (hp : extract_bill_number b.bill_number = none) : keyOK b = none := by
  unfold keyOK
  rw [hp]

theorem keyOK_inv {b : RBill} {k : String × Int} (h : keyOK b = some k) :
    ∃ pn : String × Nat, extract_bill_number b.bill_number = some pn ∧
      pn.1 ≠ "" ∧ pn.2 ≠ 0 ∧ k = (pn.1, (pn.2 : Int)) := by
  cases hp : extract_bill_number b.bill_number with
  | none => rw [keyOK_noparse b hp] at h; cases h
  | some pn =>
    rw [keyOK_parse b pn hp] at h
    by_cases hg : pn.1 ≠ "" ∧ pn.2 ≠ 0
    · rw [if_pos hg] at h
      exact ⟨pn, rfl, hg.1, hg.2, (Option.some.inj h).symm⟩
    · rw [if_neg hg] at h; cases h

/-! ### Claim C5 -/

/-- C5: for every bill in every corpus processed by the relator, the bill's
own number never appears in its own `related_bills` list. -/

theorem C5_no_self_relation (bills : List RBill) (o : RBill)
    (ho : o ∈ (find_related_bills bills).1) (r : List String)
    (hr : o.related_bills = some r) : o.bill_number ∉ r := by
  rcases List.mem_map.mp ho with ⟨b, hb, rfl⟩
  have hrr : r = relatedOf bills b := (Option.some.inj hr).symm
  subst hrr
  intro hx
  exact (acceptedRelated_elem (mem_relatedOf hx)).1 rfl

/-! ### Claim C7 -/

/-- C7: the relator is total — every bill of the corpus comes out with a
`related_bills` field holding a deduplicated, lexicographically sorted list
of other bills' numbers; a bill with unparseable number gets no companion
contributions, and a topic-less (e.g. empty) title gets no topic
contributions. -/

theorem C7_relate_total (bills : List RBill) :
    (∀ o ∈ (find_related_bills bills).1, ∃ r, o.related_bills = some r ∧
      List.Sorted (fun a b => strLe a b = true) r ∧ r.Nodup ∧
      (∀ x ∈ r, x ≠ o.bill_number ∧ ∃ c ∈ bills, c.bill_number = x)) ∧
    (∀ b : RBill, extract_bill_number b.bill_number = none → companions bills b = []) ∧
    (∀ b : RBill, find_topic b.title = none → topicMatches bills b = []) ∧
    find_topic "" = none := by
  refine ⟨?_, ?_, ?_, by decide⟩
  · intro o ho
    rcases List.mem_map.mp ho with ⟨b, hb, rfl⟩
    refine ⟨relatedOf bills b, rfl, relatedOf_sorted bills b, relatedOf_nodup bills b, ?_⟩
    intro x hx
    exact acceptedRelated_elem (mem_relatedOf hx)
  · exact fun b hb => companions_of_noparse bills b hb
  · intro b hb
    unfold topicMatches
    rw [hb]

/-! ### Claim C8 -/

/-- C8: every emitted cluster has more than one member; its `count` field is
the full member count while `bills` is the sorted member list truncated to
20; and the emitted list is ordered by descending member count. -/

theorem C8_clusters (bills : List RBill) :
    (∀ c ∈ cluster_data bills, 1 < c.count ∧
      c.count = (clusterMembers bills c.topic).length ∧
      c.bills = (sortedStrings (clusterMembers bills c.topic)).take 20 ∧
      c.bills.length ≤ 20 ∧
      List.Sorted (fun a b => strLe a b = true) c.bills) ∧
    List.Pairwise (fun c1 c2 => c2.count ≤ c1.count) (cluster_data bills) := by
  constructor
  · intro c hc
    unfold cluster_data at hc
    rcases List.mem_map.mp hc with ⟨t, ht, rfl⟩
    have hgt : 1 < (clusterMembers bills t).length := by
      have h2 := (List.mem_filter.mp ht).2
      simpa using h2
    exact ⟨hgt, rfl, rfl, List.length_take_le _ _,
      (sortedStrings_sorted _).sublist (List.take_sublist _ _)⟩
  · have hsorted : List.Pairwise
        (fun t1 t2 => (clusterMembers bills t2).length ≤ (clusterMembers bills t1).length)
        (clusterSortedKeys bills) := by
      haveI : IsTotal String
          (fun t1 t2 => (clusterMembers bills t2).length ≤ (clusterMembers bills t1).length) :=
        ⟨fun _ _ => le_total _ _⟩
      haveI : IsTrans String
          (fun t1 t2 => (clusterMembers bills t2).length ≤ (clusterMembers bills t1).length) :=
        ⟨fun _ _ _ h1 h2 => le_trans h2 h1⟩
      exact List.sorted_insertionSort _ _
    exact List.pairwise_map.mpr (hsorted.filter _)

/-- Witness for C8 at a two-bill tax corpus with one emitted cluster. -/

theorem C8_clusters_witness :
    ((⟨"tax", 2, ["HB 1", "SB 9"]⟩ : Cluster) ∈
      cluster_data [{ bill_number := "HB 1", title := "tax" },
                    { bill_number := "SB 9", title := "a tax act" }]) ∧
    1 < (⟨"tax", 2, ["HB 1", "SB 9"]⟩ : Cluster).count := by
  refine ⟨by decide, ?_⟩
  exact ((C8_clusters [{ bill_number := "HB 1", title := "tax" },
    { bill_number := "SB 9", title := "a tax act" }]).1 _ (by decide)).1

/-! ### Claim C9 -/

/-- C9: bounded evidence — whenever `score_bill` writes a `concerns` or
`positives` list it is deduplicated with at most 3 entries, and every
`related_bills` list emitted by the relator is deduplicated with at most
10 entries. -/

theorem C9_bounded (m : String → String → Bool) (b : SBill) (bills : List RBill) :
    ((score_bill m b).concerns ≠ b.concerns →
      ∃ l, (score_bill m b).concerns = some l ∧ l.Nodup ∧ l.length ≤ 3) ∧
    ((score_bill m b).positives ≠ b.positives →
      ∃ l, (score_bill m b).positives = some l ∧ l.Nodup ∧ l.length ≤ 3) ∧
    (∀ o ∈ (find_related_bills bills).1, ∃ r, o.related_bills = some r ∧
      r.Nodup ∧ r.length ≤ 10) := by
  refine ⟨?_, ?_, ?_⟩
  · intro hne
    rw [score_bill_concerns] at hne ⊢
    by_cases hc : matched_concerns m b = []
    · rw [if_pos hc] at hne; exact absurd rfl hne
    · rw [if_neg hc]
      exact ⟨_, rfl, (List.take_sublist _ _).nodup (List.nodup_dedup _),
        List.length_take_le _ _⟩
  · intro hne
    rw [score_bill_positives] at hne ⊢
    by_cases hc : matched_positives m b = []
    · rw [if_pos hc] at hne; exact absurd rfl hne
    · rw [if_neg hc]
      exact ⟨_, rfl, (List.take_sublist _ _).nodup (List.nodup_dedup _),
        List.length_take_le _ _⟩
  · intro o ho
    rcases List.mem_map.mp ho with ⟨b2, hb2, rfl⟩
    refine ⟨relatedOf bills b2, rfl, relatedOf_nodup bills b2, ?_⟩
    rw [relatedOf]
    exact List.length_take_le _ _

/-- Witness for C9: a run that writes a concerns list, and a relator output
bill, both satisfying the bounds. -/

theorem C9_bounded_witness :
    (score_bill mMandate bMandateAction).concerns ≠ bMandateAction.concerns ∧
    (∃ l, (score_bill mMandate bMandateAction).concerns = some l ∧
      l.Nodup ∧ l.length ≤ 3) ∧
    (∃ r, ({ bill_number := "HB 2", related_bills := some ["SB 2"] } : RBill).related_bills =
      some r ∧ r.Nodup ∧ r.length ≤ 10) := by
  refine ⟨by decide, ?_, ?_⟩
  · exact (C9_bounded mMandate bMandateAction corpusW).1 (by decide)
  · exact (C9_bounded mMandate bMandateAction corpusW).2.2 _ (by decide)

/-- C6, as stated, is false: for N = 0 the corpus holds both "HB 0" and
"SB 0", yet the `if prefix and num:` guards treat the number 0 as falsy, so
neither bill is indexed or probed and both end with empty `related_bills`. -/

theorem C6_counterexample :
    extract_bill_number hb0.bill_number = some ("HB", 0) ∧
    extract_bill_number sb0.bill_number = some ("SB", 0) ∧
    sb0.bill_number ∉ relatedOf corpus6 hb0 ∧
    hb0.bill_number ∉ relatedOf corpus6 sb0 ∧
    (find_related_bills corpus6).1 =
      [{ hb0 with related_bills := some [] }, { sb0 with related_bills := some [] }] := by
  decide

/-- C6 (amended): for every corpus containing a bill parsing as ("HB", N)
and one parsing as ("SB", N) with the same N ≥ 1, and in which no two
bills share a parsed (prefix, number) key, each bill accepts the other as
related (offset-0 companion rule, no similarity condition); each also
appears in the other's final `related_bills` whenever that final list is
not full (fewer than 10 entries). -/

theorem C6_companion_symmetry_amended (bills : List RBill) (hb sb : RBill) (n : Nat)
    (K : ∀ b1 ∈ bills, ∀ b2 ∈ bills, keyOK b1 = keyOK b2 → keyOK b1 ≠ none → b1 = b2)
    (hhb : hb ∈ bills) (hsb : sb ∈ bills)
    (hkh : extract_bill_number hb.bill_number = some ("HB", n))
    (hks : extract_bill_number sb.bill_number = some ("SB", n))
    (hn : n ≠ 0) :
    sb.bill_number ∈ acceptedRelated bills hb ∧
    hb.bill_number ∈ acceptedRelated bills sb ∧
    ((relatedOf bills hb).length < 10 → sb.bill_number ∈ relatedOf bills hb) ∧
    ((relatedOf bills sb).length < 10 → hb.bill_number ∈ relatedOf bills sb) := by
  have hkeyh : keyOK hb = some ("HB", (n : Int)) := by
    rw [keyOK_parse hb ("HB", n) hkh, if_pos ⟨by simp, hn⟩]
  have hkeys : keyOK sb = some ("SB", (n : Int)) := by
    rw [keyOK_parse sb ("SB", n) hks, if_pos ⟨by simp, hn⟩]
  have hbnh : by_number bills ("HB", (n : Int)) = some hb := by_number_eq_of_inj K hhb hkeyh
  have hbns : by_number bills ("SB", (n : Int)) = some sb := by_number_eq_of_inj K hsb hkeys
  have hne : hb.bill_number ≠ sb.bill_number := by
    intro he
    rw [he, hks] at hkh
    have h2 := congrArg Prod.fst (Option.some.inj hkh)
    simp at h2
  have hmemh : sb.bill_number ∈ companions bills hb := by
    rw [mem_companions_iff ("HB", n) hkh ⟨Or.inl rfl, hn⟩]
    refine ⟨10, by norm_num, sb, ?_, Ne.symm hne, Or.inl (by norm_num), rfl⟩
    simpa using hbns
  have hmems : hb.bill_number ∈ companions bills sb := by
    rw [mem_companions_iff ("SB", n) hks ⟨Or.inr rfl, hn⟩]
    refine ⟨10, by norm_num, hb, ?_, hne, Or.inl (by norm_num), rfl⟩
    simpa using hbnh
  exact ⟨List.mem_append_left _ hmemh, List.mem_append_left _ hmems,
    fun hl => relatedOf_mem_of (List.mem_append_left _ hmemh) hl,
    fun hl => relatedOf_mem_of (List.mem_append_left _ hmems) hl⟩

/-- Witness for C6 (amended) on the two-bill corpus {"HB 2", "SB 2"}. -/

theorem C6_companion_symmetry_amended_witness :
    (hbW ∈ corpusW ∧ sbW ∈ corpusW ∧
     extract_bill_number hbW.bill_number = some ("HB", 2) ∧
     extract_bill_number sbW.bill_number = some ("SB", 2)) ∧
    (sbW.bill_number ∈ acceptedRelated corpusW hbW ∧
     hbW.bill_number ∈ acceptedRelated corpusW sbW ∧
     ((relatedOf corpusW hbW).length < 10 → sbW.bill_number ∈ relatedOf corpusW hbW) ∧
     ((relatedOf corpusW sbW).length < 10 → hbW.bill_number ∈ relatedOf corpusW sbW)) := by
  refine ⟨⟨by decide, by decide, by decide, by decide⟩, ?_⟩
  exact C6_companion_symmetry_amended corpusW hbW sbW 2
    (by decide) (by decide) (by decide) (by decide) (by decide) (by decide)

/-! ### Claim C10: symmetry of the pre-truncation acceptance relation -/

theorem opp_chamber {p : String} (h : p = "HB" ∨ p = "SB") :
    ((if p = "HB" then "SB" else "HB") = "HB" ∨ (if p = "HB" then "SB" else "HB") = "SB") ∧
    (if (if p = "HB" then "SB" else "HB") = "HB" then "SB" else "HB") = p ∧
    p ≠ "" := by
  rcases h with h | h <;> subst h <;> decide

theorem topic_symm_core (bills : List RBill) (A B : RBill)
    (H : ∀ b1 ∈ bills, ∀ b2 ∈ bills, b1.bill_number = b2.bill_number → b1 = b2)
    (hA : A ∈ bills) (hB : B ∈ bills)
    (ht : B.bill_number ∈ topicMatches bills A) :
    A.bill_number ∈ topicMatches bills B := by
  rcases mem_topicMatches.mp ht with ⟨t, htA, o, ho, hot, hne, hov, hxo⟩
  have hoB : o = B := H o ho B hB hxo.symm
  subst hoB
  exact mem_topicMatches.mpr
    ⟨t, hot, A, hA, htA, Ne.symm hne, by rw [overlapGTb_comm]; exact hov, rfl⟩

theorem companion_symm_core (bills : List RBill) (A B : RBill)
    (K : ∀ b1 ∈ bills, ∀ b2 ∈ bills, keyOK b1 = keyOK b2 → keyOK b1 ≠ none → b1 = b2)
    (H : ∀ b1 ∈ bills, ∀ b2 ∈ bills, b1.bill_number = b2.bill_number → b1 = b2)
    (hA : A ∈ bills) (hB : B ∈ bills)
    (hc : B.bill_number ∈ companions bills A) :
    A.bill_number ∈ companions bills B := by
  cases hpA : extract_bill_number A.bill_number with
  | none => rw [companions_of_noparse bills A hpA] at hc; cases hc
  | some pnA =>
    by_cases hgA : (pnA.1 = "HB" ∨ pnA.1 = "SB") ∧ pnA.2 ≠ 0
    · rcases (mem_companions_iff pnA hpA hgA).mp hc with ⟨i, hi, comp, hb, hnec, hcond, hxc⟩
      have hcm := by_number_mem hb
      have hcompB : comp = B := H comp hcm.1 B hB hxc.symm
      subst hcompB
      rcases keyOK_inv hcm.2 with ⟨pnB, hpB, hB1ne, hB2ne, hkeq⟩
      have hfst : (if pnA.1 = "HB" then "SB" else "HB") = pnB.1 := by
        have := congrArg Prod.fst hkeq
        simpa using this
      have hsnd : (pnA.2 : Int) + ((i : Int) - 10) = (pnB.2 : Int) := by
        have := congrArg Prod.snd hkeq
        simpa using this
      have hgB : (pnB.1 = "HB" ∨ pnB.1 = "SB") ∧ pnB.2 ≠ 0 := by
        refine ⟨?_, hB2ne⟩
        rw [← hfst]
        exact (opp_chamber hgA.1).1
      have hoppB : (if pnB.1 = "HB" then "SB" else "HB") = pnA.1 := by
        rw [← hfst]
        exact (opp_chamber hgA.1).2.1
      have hkeyA : keyOK A = some (pnA.1, (pnA.2 : Int)) := by
        rw [keyOK_parse A pnA hpA, if_pos ⟨(opp_chamber hgA.1).2.2, hgA.2⟩]
      have hbnA : by_number bills (pnA.1, (pnA.2 : Int)) = some A :=
        by_number_eq_of_inj K hA hkeyA
      rw [mem_companions_iff pnB hpB hgB]
      refine ⟨20 - i, by omega, A, ?_, Ne.symm hnec, ?_, rfl⟩
      · have hkey : ((if pnB.1 = "HB" then "SB" else "HB"),
            (pnB.2 : Int) + (((20 - i : Nat) : Int) - 10)) = (pnA.1, (pnA.2 : Int)) := by
          simp only [Prod.mk.injEq]
          refine ⟨hoppB, ?_⟩
          have hle : i ≤ 20 := by omega
          rw [Nat.cast_sub hle]
          push_cast
          omega
        rw [hkey]
        exact hbnA
      · rcases hcond with h0 | hov
        · left
          have h10 : i = 10 := by omega
          subst h10
          norm_num
        · right
          rw [overlapGTb_comm]
          exact hov
    · rw [companions_of_parse bills A pnA hpA, if_neg hgA] at hc
      cases hc

/-- C10, as stated, is false: with duplicate parse keys ("SB 1" and "SB 01"
both index as ("SB", 1), last one wins), "SB 1" accepts "HB 1" via the
offset-0 probe, but "HB 1"'s probe of ("SB", 1) resolves to "SB 01", so
"HB 1" never accepts "SB 1" — acceptance is asymmetric, and the final-list
consequence fails too ("SB 1" lists "HB 1", whose list has fewer than 10
entries yet omits "SB 1"). -/

theorem C10_counterexample :
    cexA.bill_number ∈ acceptedRelated corpus10 cexB ∧
    cexB.bill_number ∉ acceptedRelated corpus10 cexA ∧
    cexA.bill_number ∈ relatedOf corpus10 cexB ∧
    (relatedOf corpus10 cexA).length < 10 ∧
    cexB.bill_number ∉ relatedOf corpus10 cexA := by decide

/-- C10 (amended): provided no two bills of the corpus share a bill number
and no two share a parsed (prefix, number) key, the pre-truncation
acceptance relation is symmetric: A accepts B iff B accepts A; and
whenever A's final `related_bills` contains B's number and B's final list
has fewer than 10 entries, B's final list contains A's number. -/

theorem C10_symmetry_amended (bills : List RBill) (A B : RBill)
    (K : ∀ b1 ∈ bills, ∀ b2 ∈ bills, keyOK b1 = keyOK b2 → keyOK b1 ≠ none → b1 = b2)
    (H : ∀ b1 ∈ bills, ∀ b2 ∈ bills, b1.bill_number = b2.bill_number → b1 = b2)
    (hA : A ∈ bills) (hB : B ∈ bills) :
    (B.bill_number ∈ acceptedRelated bills A ↔ A.bill_number ∈ acceptedRelated bills B) ∧
    (B.bill_number ∈ relatedOf bills A → (relatedOf bills B).length < 10 →
      A.bill_number ∈ relatedOf bills B) := by
  have hsym : ∀ X, X ∈ bills → ∀ Y, Y ∈ bills →
      Y.bill_number ∈ acceptedRelated bills X → X.bill_number ∈ acceptedRelated bills Y := by
    intro X hX Y hY hxy
    rcases List.mem_append.mp hxy with hcside | htside
    · exact List.mem_append_left _ (companion_symm_core bills X Y K H hX hY hcside)
    · exact List.mem_append_right _ (topic_symm_core bills X Y H hX hY htside)
  refine ⟨⟨fun h => hsym A hA B hB h, fun h => hsym B hB A hA h⟩, ?_⟩
  intro h1 h2
  exact relatedOf_mem_of (hsym A hA B hB (mem_relatedOf h1)) h2

/-- Witness for C10 (amended) on the two-bill corpus {"HB 2", "SB 2"}. -/

theorem C10_symmetry_amended_witness :
    (hbW ∈ corpusW ∧ sbW ∈ corpusW) ∧
    ((sbW.bill_number ∈ acceptedRelated corpusW hbW ↔
      hbW.bill_number ∈ acceptedRelated corpusW sbW) ∧
     (sbW.bill_number ∈ relatedOf corpusW hbW → (relatedOf corpusW sbW).length < 10 →
      hbW.bill_number ∈ relatedOf corpusW sbW)) := by
  refine ⟨⟨by decide, by decide⟩, ?_⟩
  exact C10_symmetry_amended corpusW hbW sbW (by decide) (by decide) (by decide) (by decide)

/-- Witness for C5 on the two-bill corpus {"HB 2", "SB 2"}. -/

theorem C5_no_self_relation_witness :
    (({ bill_number := "HB 2", related_bills := some ["SB 2"] } : RBill) ∈
      (find_related_bills corpusW).1) ∧
    ({ bill_number := "HB 2", related_bills := some ["SB 2"] } : RBill).bill_number ∉
      (["SB 2"] : List String) := by
  refine ⟨by decide, ?_⟩
  exact C5_no_self_relation corpusW _ (by decide) ["SB 2"] (by decide)

/-- Witness for C7 on the two-bill corpus {"HB 2", "SB 2"}. -/

theorem C7_relate_total_witness :
    ∃ r, ({ bill_number := "HB 2", related_bills := some ["SB 2"] } : RBill).related_bills =
        some r ∧
      List.Sorted (fun a b => strLe a b = true) r ∧ r.Nodup ∧
      (∀ x ∈ r,
        x ≠ ({ bill_number := "HB 2", related_bills := some ["SB 2"] } : RBill).bill_number ∧
        ∃ c ∈ corpusW, c.bill_number = x) :=
  (C7_relate_total corpusW).1 _ (by decide)
